import Mathlib

/-!
Shallow embedding of the ShareBox share lifecycle and storage engine.

Sources embedded here:
- `src/lib/persistent-store.ts` (the persistent Map store and its operations)
- `src/lib/encryption.ts` (codec `encryptFileBuffer` and `decryptFileBuffer`,
  the in-memory database, the temporary store, `getFileShare`, `saveFileShare`,
  `deleteFileShare`)
- `src/lib/temp-cache.ts` (`getCachedFile`)
- `src/app/api/upload-chunk/route.ts` (chunk sessions, sweep, POST handler)
- the download route and the share route (unnamed source files)

Bytes are modelled as `List Nat`, timestamps as `Int` epoch milliseconds.
External primitives (the CryptoJS cipher, base64, `JSON.stringify` and
`JSON.parse` on arrays of strings) are parameters of the embedded functions;
theorems assume only their documented behaviour, and witnesses instantiate
them with concrete executable stand-ins defined below.
-/

namespace ShareBox

/-- Association-list lookup, mirroring `Map.get` for string keys. -/
def lookupA {β : Type} : List (String × β) → String → Option β
  | [], _ => none
  | (k, v) :: rest, key => if k = key then some v else lookupA rest key

/-- Association-list update, mirroring `Map.set`: replaces the entry in place
when the key is present, otherwise appends (JS maps keep insertion order). -/
def setA {β : Type} : List (String × β) → String → β → List (String × β)
  | [], key, v => [(key, v)]
  | (k, v0) :: rest, key, v =>
      if k = key then (k, v) :: rest else (k, v0) :: setA rest key v

/-- Association-list removal, mirroring `Map.delete` (a JS map holds at most
one entry per key, so dropping every entry with the key is the same map). -/
def eraseA {β : Type} (l : List (String × β)) (key : String) :
    List (String × β) :=
  l.filter fun p => decide (p.1 ≠ key)

/-- `StoredFile` from `src/lib/persistent-store.ts`. `encryptedData` is the
ciphertext string; timestamps are epoch milliseconds. -/
structure StoredFile where
  fileId : String
  fileName : String
  fileSize : Nat
  fileType : String
  encryptedData : String
  accessToken : String
  expiresAt : Int
  maxDownloads : Nat
  downloadCount : Nat
  uploadedAt : Int
deriving DecidableEq, Repr

/-- The persistent store `fileStore : Map<string, StoredFile>`. -/
abbrev PStore : Type := List (String × StoredFile)

/-- `retrieveFile` from `persistent-store.ts`: looks the file up and lazily
deletes it when `new Date() > file.expiresAt`. Returns the result together
with the updated store. -/
def retrieveFile (now : Int) (ps : PStore) (fileId : String) :
    Option StoredFile × PStore :=
  match lookupA ps fileId with
  | none => (none, ps)
  | some file =>
      if now > file.expiresAt then (none, eraseA ps fileId) else (some file, ps)

/-- `incrementDownloadCount` from `persistent-store.ts`: a plain read of the
record followed by a write of `downloadCount + 1`; no compare-and-set. -/
def incrementDownloadCount (ps : PStore) (fileId : String) : Bool × PStore :=
  match lookupA ps fileId with
  | none => (false, ps)
  | some file =>
      (true, setA ps fileId { file with downloadCount := file.downloadCount + 1 })

/-- `canDownload` from `persistent-store.ts`: fails on a missing record, lazily
deletes an expired one, and otherwise checks `downloadCount >= maxDownloads`. -/
def canDownload (now : Int) (ps : PStore) (fileId : String) : Bool × PStore :=
  match lookupA ps fileId with
  | none => (false, ps)
  | some file =>
      if now > file.expiresAt then (false, eraseA ps fileId)
      else if file.downloadCount ≥ file.maxDownloads then (false, ps)
      else (true, ps)

/-- `deleteFile` from `persistent-store.ts`. -/
def deleteFile (ps : PStore) (fileId : String) : Bool × PStore :=
  ((lookupA ps fileId).isSome, eraseA ps fileId)

/-- `FileShareData` from `src/lib/encryption.ts`. `fileData` is the ciphertext
string; `maxDownloads` is optional in the source (`maxDownloads?: number`). -/
structure FileShareData where
  id : String
  fileId : String
  fileName : String
  fileSize : Nat
  fileType : String
  fileData : String
  uploadedBy : String
  uploadedAt : Int
  expiresAt : Int
  downloadCount : Nat
  maxDownloads : Option Nat
  accessToken : String
  isDownloaded : Bool
deriving DecidableEq, Repr

/-- The two stores of `encryption.ts`: `inMemoryDatabase` (primary) and
`temporaryFileStore` (the entry keeps the `timestamp` recorded at save). -/
structure DBState where
  db : List (String × FileShareData)
  temp : List (String × (FileShareData × Int))
deriving DecidableEq, Repr

/-- `TEMP_STORE_TTL = 24 * 60 * 60 * 1000` from `encryption.ts`. -/
def TEMP_STORE_TTL : Int := 24 * 60 * 60 * 1000

/-- `saveFileShare` from `encryption.ts`: writes to `inMemoryDatabase` and to
`temporaryFileStore` with `timestamp: Date.now()`. -/
def saveFileShare (now : Int) (s : DBState) (f : FileShareData) : DBState :=
  { db := setA s.db f.fileId f, temp := setA s.temp f.fileId (f, now) }

/-- `getFileShare` from `encryption.ts`: checks `inMemoryDatabase` first, then
the temporary store while `Date.now() - timestamp < TEMP_STORE_TTL`. The
read result is modelled; the lazy cleanup of a stale temp entry does not
change any lookup result and is omitted. -/
def getFileShare (now : Int) (s : DBState) (fileId : String) :
    Option FileShareData :=
  match lookupA s.db fileId with
  | some f => some f
  | none =>
      match lookupA s.temp fileId with
      | some (d, ts) => if now - ts < TEMP_STORE_TTL then some d else none
      | none => none

/-- `deleteFileShare` from `encryption.ts`: `inMemoryDatabase.delete(fileId)`.
Note that the temporary store is left untouched. -/
def deleteFileShare (s : DBState) (fileId : String) : Bool × DBState :=
  ((lookupA s.db fileId).isSome, { s with db := eraseA s.db fileId })

/-- `updateDownloadCount` from `encryption.ts`: mutates only the
`inMemoryDatabase` copy. -/
def updateDownloadCount (s : DBState) (fileId : String) : DBState :=
  match lookupA s.db fileId with
  | none => s
  | some f =>
      let f2 := { f with downloadCount := f.downloadCount + 1, isDownloaded := true }
      { s with db := setA s.db fileId f2 }

/-- `CachedFile` from `src/lib/temp-cache.ts`. -/
structure CachedFile where
  encryptedData : String
  fileName : String
  fileSize : Nat
  fileType : String
  expiresAt : Int
  createdAt : Int
deriving DecidableEq, Repr

/-- The temp cache `tempCache : Map<string, CachedFile>`. -/
abbrev TCache : Type := List (String × CachedFile)

/-- `getCachedFile` from `temp-cache.ts`: lookup with lazy expiry on
`Date.now() > file.expiresAt` (the cleanup delete does not change any lookup
result and is omitted). -/
def getCachedFile (now : Int) (tc : TCache) (fileId : String) :
    Option CachedFile :=
  match lookupA tc fileId with
  | none => none
  | some file => if now > file.expiresAt then none else some file

/-- `CHUNK_SIZE = 5 * 1024 * 1024` from `encryptFileBuffer`. -/
def CHUNK_SIZE : Nat := 5 * 1024 * 1024

/-- The `> 10 * 1024 * 1024` size test of `encryptFileBuffer`. -/
def CHUNK_THRESHOLD : Nat := 10 * 1024 * 1024

/-- The slicing loop of `encryptFileBuffer`:
`for (i = 0; i < length; i += n) slice(i, min(i + n, length))`. -/
def sliceChunks {α : Type} : Nat → List α → List (List α)
  | _, [] => []
  | 0, x :: xs => [x :: xs]
  | n + 1, x :: xs =>
      (x :: xs).take (n + 1) :: sliceChunks (n + 1) ((x :: xs).drop (n + 1))
termination_by _ l => l.length
decreasing_by simp [List.length_drop]; omega

/-- `encryptedData.startsWith` applied to the opening bracket character, the
chunked-format tag test of `decryptFileBuffer`. -/
def startsWithLBracket (s : String) : Bool :=
  match s.data with
  | c :: _ => c = '['
  | [] => false

/-- `encryptFileBuffer` from `encryption.ts`. Parameters stand for the
external primitives: `enc` is `encryptData` (CryptoJS AES), `b64e` is
`Buffer.toString` in base64, `jsonE` is `JSON.stringify` on a string array.
Above the 10 MB threshold the buffer is split into 5 MB chunks, each chunk
base64-encoded then encrypted, and the ordered list serialized; otherwise the
whole buffer is base64-encoded then encrypted. -/
def encryptFileBuffer (enc : String → String) (b64e : List Nat → String)
    (jsonE : List String → String) (buffer : List Nat) : String :=
  if buffer.length > CHUNK_THRESHOLD then
    jsonE ((sliceChunks CHUNK_SIZE buffer).map fun c => enc (b64e c))
  else enc (b64e buffer)

/-- `decryptFileBuffer` from `encryption.ts`. `dec` is `decryptData`, `b64d`
is `Buffer.from(-, base64)`, `jsonD` is `JSON.parse` on the serialized string
array. The chunked format is detected by the leading bracket; each chunk is
decrypted, base64-decoded, and the chunks concatenated in order. -/
def decryptFileBuffer (dec : String → String) (b64d : String → List Nat)
    (jsonD : String → List String) (encryptedData : String) : List Nat :=
  if startsWithLBracket encryptedData then
    (((jsonD encryptedData).map fun c => b64d (dec c))).flatten
  else b64d (dec encryptedData)

/-- The responses the download route can produce. `payloadBytes` is a 200
carrying a byte body, `payloadRaw` is the in-memory fallback 200 whose body is
the stored `fileData` string served as-is, `invalidToken` the 403,
`notFound` the 404. `expired` (410) and `quotaExceeded` (429) are the denial
responses that only the sibling download-route variants in this repository
ever produce; they are included so statements can distinguish denial kinds. -/
inductive DownloadResp where
  | missingParams
  | payloadBytes (bytes : List Nat)
  | payloadRaw (body : String)
  | invalidToken
  | notFound
  | expired
  | quotaExceeded
deriving DecidableEq, Repr

/-- The body computation of the download route on a persistent-store hit:
`JSON.parse` the stored string and base64-decode each chunk on success,
otherwise base64-decode the whole string. `jsonTry` models the
`try JSON.parse catch` (`none` = parse failure). Note no decryption is
applied. -/
def parseStoredData (jsonTry : String → Option (List String))
    (b64d : String → List Nat) (encryptedData : String) : List Nat :=
  match jsonTry encryptedData with
  | some chunks => (chunks.map b64d).flatten
  | none => b64d encryptedData

/-- The in-memory fallback of the download route: `getFileShare`, a token
check, and the stored `fileData` string served as the body. No expiry check,
no quota check, no counter increment on this path. -/
def downloadFallback (now : Int) (dbs : DBState) (fileId token : String) :
    DownloadResp :=
  match getFileShare now dbs fileId with
  | some fs =>
      if fs.accessToken ≠ token then DownloadResp.invalidToken
      else DownloadResp.payloadRaw fs.fileData
  | none => DownloadResp.notFound

/-- The download route GET handler (`fileId` and `token` both present, no
client-supplied `encryptedData` parameter): `canDownload`, then
`retrieveFile` plus token check, then `incrementDownloadCount`, and the
parsed stored bytes as the body; any miss falls through to the in-memory
fallback. -/
def downloadRoute (now : Int) (jsonTry : String → Option (List String))
    (b64d : String → List Nat) (ps : PStore) (dbs : DBState)
    (fileId token : String) : DownloadResp × PStore :=
  let c := canDownload now ps fileId
  if c.1 then
    match retrieveFile now c.2 fileId with
    | (some persistedFile, ps2) =>
        if persistedFile.accessToken = token then
          let inc := incrementDownloadCount ps2 fileId
          (DownloadResp.payloadBytes
            (parseStoredData jsonTry b64d persistedFile.encryptedData), inc.2)
        else (downloadFallback now dbs fileId token, ps2)
    | (none, ps2) => (downloadFallback now dbs fileId token, ps2)
  else (downloadFallback now dbs fileId token, c.2)

/-- One claim attempt of the download route split at its `await` boundaries:
the `await canDownload(fileId)` check runs in one microtask, and the
`retrieveFile` + token check + `incrementDownloadCount` continuation runs in a
later one, so two concurrent requests can interleave between the two. -/
def claimCheckStep (now : Int) (ps : PStore) (fileId : String) : Bool × PStore :=
  canDownload now ps fileId

/-- Outcome of the continuation of a claim attempt. -/
inductive ClaimOutcome where
  | served
  | fellThrough
deriving DecidableEq, Repr

/-- The continuation of a claim attempt after its check passed:
`retrieveFile`, token comparison, and the plain `+= 1` increment. -/
def claimCommitStep (now : Int) (ps : PStore) (fileId token : String) :
    ClaimOutcome × PStore :=
  match retrieveFile now ps fileId with
  | (some persistedFile, ps2) =>
      if persistedFile.accessToken = token then
        (ClaimOutcome.served, (incrementDownloadCount ps2 fileId).2)
      else (ClaimOutcome.fellThrough, ps2)
  | (none, ps2) => (ClaimOutcome.fellThrough, ps2)

/-- Two concurrent download requests under the schedule
check(1), check(2), continuation(1), continuation(2) — a schedule the route
admits because each `await` yields between the check and the increment. -/
def raceTwoClaims (now : Int) (ps : PStore) (fileId token : String) :
    ClaimOutcome × ClaimOutcome × PStore :=
  let c1 := claimCheckStep now ps fileId
  let c2 := claimCheckStep now c1.2 fileId
  let r1 :=
    if c1.1 then claimCommitStep now c2.2 fileId token
    else (ClaimOutcome.fellThrough, c2.2)
  let r2 :=
    if c2.1 then claimCommitStep now r1.2 fileId token
    else (ClaimOutcome.fellThrough, r1.2)
  (r1.1, r2.1, r2.2)

/-- A row of the cloud `shares` table as the share route reads it. -/
structure SupaShare where
  file_name : String
  file_size : Nat
  expires_at : Int
  download_count : Nat
  max_downloads : Nat
  created_at : Int
deriving DecidableEq, Repr

/-- The record summary the share route returns on a hit. -/
structure ShareSummary where
  fileId : String
  fileName : String
  fileSize : Nat
  downloadCount : Nat
  maxDownloads : Option Nat
  isExpired : Bool
  canDownload : Bool
deriving DecidableEq, Repr

/-- Responses of the metadata (share) route. -/
inductive ShareResp where
  | missingParams
  | summary (s : ShareSummary)
  | invalidToken
  | expired
  | notFound
deriving DecidableEq, Repr

/-- JS truthiness of an optional number (`undefined` and `0` are falsy),
used by `!fileShare.maxDownloads`. -/
def jsTruthy : Option Nat → Bool
  | none => false
  | some n => n ≠ 0

/-- The temp-cache and in-memory tail of the share route. The temp-cache
branch builds a summary from the cached entry without comparing the token
(the source reports `downloadCount: 0, maxDownloads: 5` there); the
in-memory branch is the only one that returns 403 on a wrong token. -/
def shareRouteCacheFallback (now : Int) (tc : TCache) (dbs : DBState)
    (fileId token : String) : ShareResp :=
  match getCachedFile now tc fileId with
  | some cachedFile =>
      ShareResp.summary
        { fileId := fileId
          fileName := cachedFile.fileName
          fileSize := cachedFile.fileSize
          downloadCount := 0
          maxDownloads := some 5
          isExpired := decide (now > cachedFile.expiresAt)
          canDownload := !decide (now > cachedFile.expiresAt) }
  | none =>
      match getFileShare now dbs fileId with
      | some fileShare =>
          if fileShare.accessToken ≠ token then ShareResp.invalidToken
          else
            ShareResp.summary
              { fileId := fileShare.fileId
                fileName := fileShare.fileName
                fileSize := fileShare.fileSize
                downloadCount := fileShare.downloadCount
                maxDownloads := fileShare.maxDownloads
                isExpired := decide (now > fileShare.expiresAt)
                canDownload := !decide (now > fileShare.expiresAt) &&
                  (!jsTruthy fileShare.maxDownloads ||
                    decide (fileShare.downloadCount < fileShare.maxDownloads.getD 0)) }
      | none => ShareResp.notFound

/-- The share route GET handler (the variant with the temp-cache branch),
with `fileId` and `token` present. Branch order from the source: the cloud
table when configured, then the persistent store, then the temp cache (note:
no token comparison on this branch), then the in-memory store (the only
branch that answers 403 on a token mismatch), then 404. -/
def shareRoute (now : Int) (supabaseConfigured : Bool)
    (supaRec : Option SupaShare) (ps : PStore) (tc : TCache) (dbs : DBState)
    (fileId token : String) : ShareResp :=
  match supabaseConfigured, supaRec with
  | true, some record =>
      if now > record.expires_at then ShareResp.expired
      else
        ShareResp.summary
          { fileId := fileId
            fileName := record.file_name
            fileSize := record.file_size
            downloadCount := record.download_count
            maxDownloads := some record.max_downloads
            isExpired := false
            canDownload := decide (record.download_count < record.max_downloads) }
  | _, _ =>
      match retrieveFile now ps fileId with
      | (some persistedFile, _) =>
          if persistedFile.accessToken = token then
            ShareResp.summary
              { fileId := persistedFile.fileId
                fileName := persistedFile.fileName
                fileSize := persistedFile.fileSize
                downloadCount := persistedFile.downloadCount
                maxDownloads := some persistedFile.maxDownloads
                isExpired := decide (now > persistedFile.expiresAt)
                canDownload := !decide (now > persistedFile.expiresAt) &&
                  decide (persistedFile.downloadCount < persistedFile.maxDownloads) }
          else shareRouteCacheFallback now tc dbs fileId token
      | (none, _) => shareRouteCacheFallback now tc dbs fileId token

/-- The parsed form fields of one chunk-upload request (all required fields
present; `expiryDays` and `maxDownloads` after their `|| 7` / `|| 5`
defaulting). -/
structure ChunkReq where
  fileId : String
  chunkIndex : Nat
  chunk : List Nat
  totalChunks : Nat
  fileName : String
  fileSize : Nat
  accessToken : String
  expiryDays : Nat
  maxDownloads : Nat
deriving DecidableEq, Repr

/-- One entry of `uploadSessions` from `upload-chunk/route.ts`. `chunks` is
the per-session `Map<number, Buffer>` as an association list with set
semantics. -/
structure UploadSession where
  chunks : List (Nat × List Nat)
  fileName : String
  fileSize : Nat
  totalChunks : Nat
  accessToken : String
  expiryDays : Nat
  maxDownloads : Nat
  createdAt : Int
deriving DecidableEq, Repr

/-- The `uploadSessions` map. -/
abbrev Sessions : Type := List (String × UploadSession)

/-- The hourly cleanup sweep: deletes every session with
`createdAt < now - 3600000`. -/
def cleanupSessions (now : Int) (ss : Sessions) : Sessions :=
  ss.filter fun p => !decide (p.2.createdAt < now - 3600000)

/-- `session.chunks.set(chunkIndex, buffer)`: replace in place when the index
is present, append otherwise. -/
def setChunk : List (Nat × List Nat) → Nat → List Nat → List (Nat × List Nat)
  | [], i, b => [(i, b)]
  | (k, v) :: rest, i, b =>
      if k = i then (k, b) :: rest else (k, v) :: setChunk rest i b

/-- `session.chunks.get(i)` for the assembly loop. -/
def lookupChunk (i : Nat) : List (Nat × List Nat) → Option (List Nat)
  | [] => none
  | (k, v) :: rest => if k = i then some v else lookupChunk i rest

/-- The assembly loop of the POST handler: for `i` in `0..totalChunks-1`
take `chunks.get(i)`, failing with the first missing index, and concatenate
in index order. -/
def assembleChunks (chunks : List (Nat × List Nat)) (totalChunks : Nat) :
    Except Nat (List Nat) :=
  (((List.range totalChunks).mapM fun i =>
    match lookupChunk i chunks with
    | some buf => Except.ok buf
    | none => Except.error i)).map List.flatten

/-- The `FileShareData` the POST handler commits on completion: every
metadata field is taken from the completing request, `expiresAt` from the
route-local `calculateExpiryDate` (calendar-day addition modelled as whole
24-hour days), `downloadCount` starts at 0. -/
def mkChunkRecord (now : Int) (enc : String → String)
    (b64e : List Nat → String) (jsonE : List String → String) (req : ChunkReq)
    (buffer : List Nat) : FileShareData :=
  { id := req.fileId ++ "-" ++ req.accessToken
    fileId := req.fileId
    fileName := req.fileName
    fileSize := req.fileSize
    fileType := "application/octet-stream"
    fileData := encryptFileBuffer enc b64e jsonE buffer
    uploadedBy := "anonymous"
    uploadedAt := now
    expiresAt := now + req.expiryDays * (24 * 60 * 60 * 1000)
    downloadCount := 0
    maxDownloads := some req.maxDownloads
    accessToken := req.accessToken
    isDownloaded := false }

/-- Responses of the chunk-upload POST handler. -/
inductive ChunkResp where
  | missingFields
  | missingChunk (i : Nat)
  | pending
  | committed (rec : FileShareData)
deriving DecidableEq, Repr

/-- The POST handler of `upload-chunk/route.ts` after field parsing:
get-or-create the session (a missing session is silently recreated from the
request), store the chunk, and when `chunks.size` equals the request
`totalChunks`, assemble in index order, encrypt, commit via `saveFileShare`
and drop the session. The completion test and every committed metadata field
use the current request values, not the session values. -/
def uploadChunkPost (now : Int) (enc : String → String)
    (b64e : List Nat → String) (jsonE : List String → String) (req : ChunkReq)
    (ss : Sessions) (dbs : DBState) : ChunkResp × Sessions × DBState :=
  let session :=
    match lookupA ss req.fileId with
    | some s => s
    | none =>
        { chunks := []
          fileName := req.fileName
          fileSize := req.fileSize
          totalChunks := req.totalChunks
          accessToken := req.accessToken
          expiryDays := req.expiryDays
          maxDownloads := req.maxDownloads
          createdAt := now }
  let chunks2 := setChunk session.chunks req.chunkIndex req.chunk
  let session2 := { session with chunks := chunks2 }
  let ss2 := setA ss req.fileId session2
  if chunks2.length = req.totalChunks then
    match assembleChunks chunks2 req.totalChunks with
    | Except.error i => (ChunkResp.missingChunk i, ss2, dbs)
    | Except.ok buffer =>
        let record := mkChunkRecord now enc b64e jsonE req buffer
        (ChunkResp.committed record, eraseA ss2 req.fileId,
          saveFileShare now dbs record)
  else (ChunkResp.pending, ss2, dbs)

/-- The chunk map built by folding `Map.set` over the arrival list. -/
def buildChunks (reqs : List (Nat × List Nat)) : List (Nat × List Nat) :=
  reqs.foldl (fun m p => setChunk m p.1 p.2) []

/-! Concrete executable stand-ins for the external primitives, used to
instantiate the parameterized definitions in witnesses and concrete
scenarios. They satisfy exactly the properties the theorems assume: the
cipher is invertible and its output never starts with a bracket, the byte
encoding is invertible, and the array serialization is invertible and starts
with a bracket. -/

/-- Stand-in cipher: prefix one marker character. Its output never starts
with a bracket, like a CryptoJS AES base64 string. -/
def encT (s : String) : String := String.mk ('E' :: s.data)

/-- Inverse of `encT`. -/
def decT (s : String) : String := String.mk (s.data.drop 1)

/-- Unary byte encoding: each byte `n` becomes `n` copies of `a` then `b`. -/
def encodeNats (l : List Nat) : List Char :=
  (l.map fun n => List.replicate n 'a' ++ ['b']).flatten

/-- Stand-in for base64 encoding of a byte buffer. -/
def b64eT (l : List Nat) : String := String.mk (encodeNats l)

/-- Count the leading `a` characters. -/
def countA : List Char → Nat × List Char
  | [] => (0, [])
  | c :: rest =>
      if c = 'a' then ((countA rest).1 + 1, (countA rest).2) else (0, c :: rest)

/-- Fuel-bounded decoder for `encodeNats`. -/
def decodeNatsF : Nat → List Char → List Nat
  | 0, _ => []
  | fuel + 1, l =>
      match (countA l).2 with
      | c :: rest =>
          if c = 'b' then (countA l).1 :: decodeNatsF fuel rest else []
      | [] => []

/-- Stand-in for base64 decoding of a byte buffer. -/
def b64dT (s : String) : List Nat := decodeNatsF s.data.length s.data

/-- Unary string encoding: the length in `a` marks, a `b`, then the content. -/
def encodeStr (s : String) : List Char :=
  List.replicate s.data.length 'a' ++ 'b' :: s.data

/-- Concatenated encoding of a list of strings. -/
def encodeStrs (l : List String) : List Char := (l.map encodeStr).flatten

/-- Fuel-bounded decoder for `encodeStrs`. -/
def decodeStrsF : Nat → List Char → List String
  | 0, _ => []
  | fuel + 1, l =>
      match (countA l).2 with
      | c :: rest =>
          if c = 'b' then
            String.mk (rest.take (countA l).1) ::
              decodeStrsF fuel (rest.drop (countA l).1)
          else []
      | [] => []

/-- Decoder entry point for `encodeStrs`. -/
def decodeStrs (l : List Char) : List String := decodeStrsF l.length l

/-- Stand-in for `JSON.stringify` on an array of strings: a leading bracket
then the encoded list. -/
def jsonStringifyT (l : List String) : String := String.mk ('[' :: encodeStrs l)

/-- Stand-in for `JSON.parse` on the serialized array. -/
def jsonParseArrT (s : String) : List String := decodeStrs (s.data.drop 1)

/-- Stand-in for `try JSON.parse catch`: succeeds exactly on strings starting
with a bracket. -/
def jsonTryT (s : String) : Option (List String) :=
  if startsWithLBracket s then some (jsonParseArrT s) else none

/-! ### Helper lemmas: association maps -/

theorem lookupA_setA_self {β : Type} (l : List (String × β)) (k : String)
    (v : β) : lookupA (setA l k v) k = some v := by
  induction l with
  | nil => simp [setA, lookupA]
  | cons p rest ih =>
      obtain ⟨k0, v0⟩ := p
      by_cases h : k0 = k
      · simp [setA, lookupA, h]
      · simp [setA, lookupA, h, ih]

theorem lookupA_setA_ne {β : Type} (l : List (String × β)) (k k2 : String)
    (v : β) (h : k2 ≠ k) : lookupA (setA l k v) k2 = lookupA l k2 := by
  have h2 : ¬(k = k2) := fun he => h he.symm
  induction l with
  | nil => simp [setA, lookupA, h2]
  | cons p rest ih =>
      obtain ⟨k0, v0⟩ := p
      by_cases hp : k0 = k
      · subst hp
        simp [setA, lookupA, h2]
      · simp [setA, lookupA, hp, ih]

theorem lookupA_eraseA_self {β : Type} (l : List (String × β)) (k : String) :
    lookupA (eraseA l k) k = none := by
  induction l with
  | nil => simp [eraseA, lookupA]
  | cons p rest ih =>
      obtain ⟨k0, v0⟩ := p
      by_cases h : k0 = k
      · simpa [eraseA, List.filter_cons, h] using ih
      · simpa [eraseA, List.filter_cons, h, lookupA] using ih

theorem lookupA_eraseA_ne {β : Type} (l : List (String × β)) (k k2 : String)
    (h : k2 ≠ k) : lookupA (eraseA l k) k2 = lookupA l k2 := by
  have h2 : ¬(k = k2) := fun he => h he.symm
  induction l with
  | nil => simp [eraseA, lookupA]
  | cons p rest ih =>
      obtain ⟨k0, v0⟩ := p
      by_cases hp : k0 = k
      · subst hp
        simpa [eraseA, List.filter_cons, lookupA, h2] using ih
      · by_cases hp2 : k0 = k2
        · subst hp2
          simp [eraseA, List.filter_cons, hp, lookupA, h]
        · simpa [eraseA, List.filter_cons, hp, lookupA, hp2] using ih

theorem lookupChunk_eq_none_iff (k : Nat) (l : List (Nat × List Nat)) :
    lookupChunk k l = none ↔ k ∉ l.map Prod.fst := by
  induction l with
  | nil => simp [lookupChunk]
  | cons p rest ih =>
      obtain ⟨k0, v0⟩ := p
      by_cases h : k0 = k
      · subst h
        simp [lookupChunk]
      · have h2 : ¬(k = k0) := fun he => h he.symm
        simp [lookupChunk, h, h2, ih]

theorem mem_of_lookupChunk_eq_some (k : Nat) (v : List Nat)
    (l : List (Nat × List Nat)) (hlk : lookupChunk k l = some v) :
    (k, v) ∈ l := by
  induction l with
  | nil => simp [lookupChunk] at hlk
  | cons p rest ih =>
      obtain ⟨k0, v0⟩ := p
      by_cases h : k0 = k
      · subst h
        simp [lookupChunk] at hlk
        subst hlk
        exact List.mem_cons_self _ _
      · simp [lookupChunk, h] at hlk
        exact List.mem_cons_of_mem _ (ih hlk)

theorem lookupChunk_eq_some_of_mem (k : Nat) (v : List Nat)
    (l : List (Nat × List Nat)) (hnd : (l.map Prod.fst).Nodup)
    (hm : (k, v) ∈ l) : lookupChunk k l = some v := by
  induction l with
  | nil => simp at hm
  | cons p rest ih =>
      obtain ⟨k0, v0⟩ := p
      rw [List.map_cons, List.nodup_cons] at hnd
      rcases List.mem_cons.mp hm with hm1 | hm2
      · injection hm1 with e1 e2
        subst e1
        subst e2
        simp [lookupChunk]
      · have hk : k ∈ rest.map Prod.fst := by
          simpa using List.mem_map_of_mem Prod.fst hm2
        have hne : ¬(k0 = k) := fun he => hnd.1 (he ▸ hk)
        simp [lookupChunk, hne]
        exact ih hnd.2 hm2

theorem lookupChunk_perm (k : Nat) (l1 l2 : List (Nat × List Nat))
    (hnd : (l1.map Prod.fst).Nodup) (hp : l1.Perm l2) :
    lookupChunk k l1 = lookupChunk k l2 := by
  have hnd2 : (l2.map Prod.fst).Nodup := ((hp.map Prod.fst).nodup_iff).mp hnd
  cases hlk : lookupChunk k l1 with
  | none =>
      have hk : k ∉ l1.map Prod.fst := (lookupChunk_eq_none_iff k l1).mp hlk
      have hk2 : k ∉ l2.map Prod.fst := fun hm =>
        hk (((hp.map Prod.fst).mem_iff).mpr hm)
      exact ((lookupChunk_eq_none_iff k l2).mpr hk2).symm
  | some v =>
      have hm : (k, v) ∈ l2 :=
        hp.mem_iff.mp (mem_of_lookupChunk_eq_some k v l1 hlk)
      exact (lookupChunk_eq_some_of_mem k v l2 hnd2 hm).symm

theorem setChunk_of_not_mem (l : List (Nat × List Nat)) (k : Nat)
    (v : List Nat) (h : k ∉ l.map Prod.fst) :
    setChunk l k v = l ++ [(k, v)] := by
  induction l with
  | nil => simp [setChunk]
  | cons p rest ih =>
      obtain ⟨k0, v0⟩ := p
      simp at h
      have hne : ¬(k0 = k) := fun he => h.1 he.symm
      simp [setChunk, hne, ih (by simpa using h.2)]

theorem foldl_setChunk_of_disjoint (reqs : List (Nat × List Nat))
    (hnd : (reqs.map Prod.fst).Nodup) :
    ∀ m : List (Nat × List Nat), (∀ p ∈ reqs, p.1 ∉ m.map Prod.fst) →
    reqs.foldl (fun acc p => setChunk acc p.1 p.2) m = m ++ reqs := by
  induction reqs with
  | nil => intro m _; simp
  | cons p rest ih =>
      intro m hdis
      obtain ⟨k0, v0⟩ := p
      rw [List.map_cons, List.nodup_cons] at hnd
      have hstep : setChunk m k0 v0 = m ++ [(k0, v0)] :=
        setChunk_of_not_mem m k0 v0 (by simpa using hdis (k0, v0) (by simp))
      simp only [List.foldl_cons, hstep]
      rw [ih hnd.2 (m ++ [(k0, v0)]) ?_]
      · simp
      · intro q hq
        simp only [List.map_append, List.mem_append]
        rintro (hq1 | hq2)
        · exact hdis q (List.mem_cons_of_mem _ hq) hq1
        · simp at hq2
          exact hnd.1 (by rw [← hq2]; exact List.mem_map.mpr ⟨q, hq, rfl⟩)

theorem buildChunks_of_nodup (reqs : List (Nat × List Nat))
    (hnd : (reqs.map Prod.fst).Nodup) : buildChunks reqs = reqs := by
  simpa [buildChunks] using
    foldl_setChunk_of_disjoint reqs hnd [] (by intro p hp; simp)

/-! ### Helper lemmas: chunk slicing and the concrete codec stand-ins -/

theorem flatten_sliceChunks {α : Type} (n : Nat) (l : List α) :
    (sliceChunks (n + 1) l).flatten = l := by
  cases l with
  | nil => simp [sliceChunks]
  | cons x xs =>
      rw [sliceChunks]
      rw [List.flatten_cons, flatten_sliceChunks n ((x :: xs).drop (n + 1))]
      exact List.take_append_drop (n + 1) (x :: xs)
termination_by l.length
decreasing_by simp [List.length_drop]; omega

theorem decT_encT (s : String) : decT (encT s) = s := by
  cases s with
  | mk data => rfl

theorem startsWithLBracket_encT (s : String) :
    startsWithLBracket (encT s) = false := by
  simp [startsWithLBracket, encT]

theorem startsWithLBracket_jsonStringifyT (l : List String) :
    startsWithLBracket (jsonStringifyT l) = true := by
  simp [startsWithLBracket, jsonStringifyT]

theorem countA_replicate (n : Nat) (l : List Char) :
    countA (List.replicate n 'a' ++ 'b' :: l) = (n, 'b' :: l) := by
  induction n with
  | zero => simp [countA]
  | succ m ih => simp [List.replicate_succ, countA, ih]

theorem length_le_length_encodeNats (l : List Nat) :
    l.length ≤ (encodeNats l).length := by
  induction l with
  | nil => simp [encodeNats]
  | cons n rest ih =>
      simp only [encodeNats, List.map_cons, List.flatten_cons,
        List.length_append, List.length_cons, List.length_append,
        List.length_replicate] at ih ⊢
      omega

theorem decodeNatsF_encodeNats (l : List Nat) :
    ∀ fuel : Nat, l.length ≤ fuel →
    decodeNatsF fuel (encodeNats l) = l := by
  induction l with
  | nil =>
      intro fuel _
      cases fuel with
      | zero => rfl
      | succ m => simp [encodeNats, decodeNatsF, countA]
  | cons n rest ih =>
      intro fuel hf
      cases fuel with
      | zero => simp at hf
      | succ m =>
          have he : encodeNats (n :: rest) =
              List.replicate n 'a' ++ 'b' :: encodeNats rest := by
            simp [encodeNats]
          rw [decodeNatsF, he, countA_replicate]
          simp [ih m (by simpa using hf)]

theorem b64dT_b64eT (l : List Nat) : b64dT (b64eT l) = l := by
  have hlen := length_le_length_encodeNats l
  simpa [b64dT, b64eT] using decodeNatsF_encodeNats l (encodeNats l).length hlen

theorem length_le_length_encodeStrs (l : List String) :
    l.length ≤ (encodeStrs l).length := by
  induction l with
  | nil => simp [encodeStrs]
  | cons s rest ih =>
      simp only [encodeStrs, List.map_cons, List.flatten_cons, encodeStr,
        List.length_append, List.length_cons, List.length_replicate] at ih ⊢
      omega

theorem decodeStrsF_encodeStrs (l : List String) :
    ∀ fuel : Nat, l.length ≤ fuel →
    decodeStrsF fuel (encodeStrs l) = l := by
  induction l with
  | nil =>
      intro fuel _
      cases fuel with
      | zero => rfl
      | succ m => simp [encodeStrs, decodeStrsF, countA]
  | cons s rest ih =>
      intro fuel hf
      cases fuel with
      | zero => simp at hf
      | succ m =>
          have he : encodeStrs (s :: rest) =
              List.replicate s.data.length 'a' ++ 'b' ::
                (s.data ++ encodeStrs rest) := by
            simp [encodeStrs, encodeStr]
          rw [decodeStrsF, he, countA_replicate]
          simp only
          rw [List.take_left, List.drop_left]
          rw [ih m (by simpa using hf)]
          cases s with
          | mk data => simp

theorem jsonParseArrT_jsonStringifyT (l : List String) :
    jsonParseArrT (jsonStringifyT l) = l := by
  have hlen := length_le_length_encodeStrs l
  have h1 : (jsonStringifyT l).data.drop 1 = encodeStrs l := by
    simp [jsonStringifyT]
  simp only [jsonParseArrT, decodeStrs, h1]
  exact decodeStrsF_encodeStrs l (encodeStrs l).length hlen

theorem jsonTryT_encT (s : String) : jsonTryT (encT s) = none := by
  simp [jsonTryT, startsWithLBracket_encT]

theorem mapM_except_ok {α β γ : Type} (l : List α) (h : α → Except γ β)
    (g : α → β) (hh : ∀ a ∈ l, h a = Except.ok (g a)) :
    l.mapM h = Except.ok (l.map g) := by
  induction l with
  | nil => rfl
  | cons a rest ih =>
      rw [List.mapM_cons, hh a (List.mem_cons_self a rest),
        ih fun b hb => hh b (List.mem_cons_of_mem a hb)]
      rfl

/-! ### Claims -/

/-- C2: for every byte payload, `decryptFileBuffer` inverts
`encryptFileBuffer` byte for byte, for any cipher, base64 coder and array
serializer with their documented behaviour (the cipher is inverted by
decryption and its output does not start with a bracket, the base64 coder
round-trips, the serializer round-trips and starts with a bracket); above
the 10 MB threshold the ciphertext is the serialized ordered list of the
independently encrypted 5 MB parts. -/
theorem C2_decrypt_encrypt_roundtrip (enc dec : String → String)
    (b64e : List Nat → String) (b64d : String → List Nat)
    (jsonE : List String → String) (jsonD : String → List String)
    (hdec : ∀ s, dec (enc s) = s)
    (hb : ∀ l, b64d (b64e l) = l)
    (hj : ∀ ls, jsonD (jsonE ls) = ls)
    (hencNB : ∀ s, startsWithLBracket (enc s) = false)
    (hjB : ∀ ls, startsWithLBracket (jsonE ls) = true)
    (x : List Nat) :
    decryptFileBuffer dec b64d jsonD (encryptFileBuffer enc b64e jsonE x) = x ∧
    (x.length > CHUNK_THRESHOLD →
      encryptFileBuffer enc b64e jsonE x =
        jsonE ((sliceChunks CHUNK_SIZE x).map fun c => enc (b64e c))) := by
  constructor
  · rw [encryptFileBuffer]
    by_cases hlen : x.length > CHUNK_THRESHOLD
    · rw [if_pos hlen, decryptFileBuffer, if_pos (hjB _), hj, List.map_map]
      have hmap : ((sliceChunks CHUNK_SIZE x).map
          ((fun c => b64d (dec c)) ∘ fun c => enc (b64e c))) =
          (sliceChunks CHUNK_SIZE x).map id :=
        List.map_congr_left fun c _ => by simp [Function.comp, hdec, hb]
      rw [hmap, List.map_id]
      have hcs : CHUNK_SIZE = 5242879 + 1 := by norm_num [CHUNK_SIZE]
      rw [hcs]
      exact flatten_sliceChunks 5242879 x
    · rw [if_neg hlen, decryptFileBuffer, if_neg (by simp [hencNB]),
        hdec, hb]
  · intro hlen
    rw [encryptFileBuffer, if_pos hlen]

/-- Witness for C2 at the concrete payload `[1, 2, 3]` with the concrete
codec stand-ins. -/
theorem C2_decrypt_encrypt_roundtrip_witness :
    decryptFileBuffer decT b64dT jsonParseArrT
      (encryptFileBuffer encT b64eT jsonStringifyT [1, 2, 3]) = [1, 2, 3] :=
  (C2_decrypt_encrypt_roundtrip encT decT b64eT b64dT jsonStringifyT
    jsonParseArrT decT_encT b64dT_b64eT jsonParseArrT_jsonStringifyT
    startsWithLBracket_encT startsWithLBracket_jsonStringifyT [1, 2, 3]).1

/-- C8: the assembled payload depends only on the set of
`(partIndex, bytes)` pairs received, not on their arrival order: with
distinct indices covering exactly `0..totalParts-1`, the session chunk map
reaches size `totalParts`, any two arrival orders assemble to the same
result, and the result is the concatenation of the parts in index order. -/
theorem C8_assembly_order_independent (total : Nat)
    (reqs1 reqs2 : List (Nat × List Nat))
    (hperm : reqs1.Perm reqs2)
    (hnd : (reqs1.map Prod.fst).Nodup)
    (hcov : ∀ i, i ∈ reqs1.map Prod.fst ↔ i < total) :
    (buildChunks reqs1).length = total ∧
    assembleChunks (buildChunks reqs1) total =
      assembleChunks (buildChunks reqs2) total ∧
    ∀ f : Nat → List Nat, (∀ p ∈ reqs1, f p.1 = p.2) →
      assembleChunks (buildChunks reqs1) total =
        Except.ok ((List.range total).map f).flatten := by
  have hnd2 : (reqs2.map Prod.fst).Nodup :=
    ((hperm.map Prod.fst).nodup_iff).mp hnd
  have hb1 : buildChunks reqs1 = reqs1 := buildChunks_of_nodup reqs1 hnd
  have hb2 : buildChunks reqs2 = reqs2 := buildChunks_of_nodup reqs2 hnd2
  have hrange : (reqs1.map Prod.fst).Perm (List.range total) :=
    (List.perm_ext_iff_of_nodup hnd (List.nodup_range total)).mpr
      fun i => by simp [hcov i, List.mem_range]
  refine ⟨?_, ?_, ?_⟩
  · rw [hb1, ← List.length_map reqs1 Prod.fst, hrange.length_eq,
      List.length_range]
  · rw [hb1, hb2]
    simp only [assembleChunks]
    have hfun : (fun i => match lookupChunk i reqs1 with
        | some buf => Except.ok buf
        | none => Except.error i) =
        (fun i => match lookupChunk i reqs2 with
        | some buf => (Except.ok buf : Except Nat (List Nat))
        | none => Except.error i) := by
      funext i
      rw [lookupChunk_perm i reqs1 reqs2 hnd hperm]
    rw [hfun]
  · intro f hf
    rw [hb1]
    simp only [assembleChunks]
    rw [mapM_except_ok (List.range total)
      (fun i => match lookupChunk i reqs1 with
        | some buf => Except.ok buf
        | none => Except.error i) f ?_]
    · rfl
    · intro i hi
      have hmem : i ∈ reqs1.map Prod.fst :=
        (hcov i).mpr (List.mem_range.mp hi)
      obtain ⟨p, hp, hpe⟩ := List.mem_map.mp hmem
      have hlk : lookupChunk i reqs1 = some p.2 := by
        rw [← hpe]
        exact lookupChunk_eq_some_of_mem p.1 p.2 reqs1 hnd (by simpa using hp)
      show (match lookupChunk i reqs1 with
        | some buf => (Except.ok buf : Except Nat (List Nat))
        | none => Except.error i) = Except.ok (f i)
      rw [hlk, ← hpe, hf p hp]

/-- Witness for C8: out-of-order arrival `[2, 0, 1]` versus in-order
`[0, 1, 2]` with three concrete parts. -/
theorem C8_assembly_order_independent_witness :
    (buildChunks [(0, [10]), (1, [20]), (2, [30])]).length = 3 ∧
    assembleChunks (buildChunks [(0, [10]), (1, [20]), (2, [30])]) 3 =
      assembleChunks (buildChunks [(2, [30]), (0, [10]), (1, [20])]) 3 ∧
    assembleChunks (buildChunks [(0, [10]), (1, [20]), (2, [30])]) 3 =
      Except.ok ((List.range 3).map fun i => [10 * i + 10]).flatten := by
  have h := C8_assembly_order_independent 3
    [(0, [10]), (1, [20]), (2, [30])] [(2, [30]), (0, [10]), (1, [20])]
    (by decide) (by decide) (fun i => by simp; omega)
  exact ⟨h.1, h.2.1, h.2.2 (fun i => [10 * i + 10]) (by decide)⟩

theorem uploadChunkPost_resp_depends_only_on_chunks (now : Int)
    (enc : String → String) (b64e : List Nat → String)
    (jsonE : List String → String) (req : ChunkReq) (ss1 ss2 : Sessions)
    (dbs : DBState) (s1 s2 : UploadSession)
    (h1 : lookupA ss1 req.fileId = some s1)
    (h2 : lookupA ss2 req.fileId = some s2)
    (hch : s1.chunks = s2.chunks) :
    (uploadChunkPost now enc b64e jsonE req ss1 dbs).1 =
    (uploadChunkPost now enc b64e jsonE req ss2 dbs).1 := by
  simp only [uploadChunkPost, h1, h2, hch]
  by_cases hc : (setChunk s2.chunks req.chunkIndex req.chunk).length =
      req.totalChunks
  · simp only [if_pos hc]
    cases assembleChunks (setChunk s2.chunks req.chunkIndex req.chunk)
        req.totalChunks with
    | error i => rfl
    | ok buffer => rfl
  · simp only [if_neg hc]

/-- C10: when a chunk completes a session, every metadata field of the
committed record (name, size, token, retention window, download limit) comes
from the completing request, and the metadata stored in the session plays no
role: replacing all of it changes neither the response nor the committed
record. -/
theorem C10_commit_uses_request_values (now : Int) (enc : String → String)
    (b64e : List Nat → String) (jsonE : List String → String) (req : ChunkReq)
    (ss : Sessions) (dbs : DBState) (session : UploadSession)
    (h : lookupA ss req.fileId = some session) :
    (∀ rec ss2 dbs2,
      uploadChunkPost now enc b64e jsonE req ss dbs =
        (ChunkResp.committed rec, ss2, dbs2) →
      rec.fileName = req.fileName ∧ rec.fileSize = req.fileSize ∧
      rec.accessToken = req.accessToken ∧
      rec.maxDownloads = some req.maxDownloads ∧
      rec.expiresAt = now + req.expiryDays * (24 * 60 * 60 * 1000)) ∧
    (∀ fn fs2 tc2 at2 ed2 md2 ca2,
      (uploadChunkPost now enc b64e jsonE req
        (setA ss req.fileId
          { chunks := session.chunks, fileName := fn, fileSize := fs2,
            totalChunks := tc2, accessToken := at2, expiryDays := ed2,
            maxDownloads := md2, createdAt := ca2 }) dbs).1 =
      (uploadChunkPost now enc b64e jsonE req ss dbs).1) := by
  constructor
  · intro rec ss2 dbs2 hres
    rw [uploadChunkPost] at hres
    rw [h] at hres
    by_cases hc : (setChunk session.chunks req.chunkIndex req.chunk).length =
        req.totalChunks
    · rw [if_pos hc] at hres
      cases hasm : assembleChunks (setChunk session.chunks req.chunkIndex
          req.chunk) req.totalChunks with
      | error i =>
          rw [hasm] at hres
          simp at hres
      | ok buffer =>
          rw [hasm] at hres
          have hrec : rec = mkChunkRecord now enc b64e jsonE req buffer := by
            have := congrArg Prod.fst hres
            simpa using this.symm
          subst hrec
          simp [mkChunkRecord]
    · rw [if_neg hc] at hres
      simp at hres
  · intro fn fs2 tc2 at2 ed2 md2 ca2
    exact uploadChunkPost_resp_depends_only_on_chunks now enc b64e jsonE req
      (setA ss req.fileId
        { chunks := session.chunks, fileName := fn, fileSize := fs2,
          totalChunks := tc2, accessToken := at2, expiryDays := ed2,
          maxDownloads := md2, createdAt := ca2 }) ss dbs
      { chunks := session.chunks, fileName := fn, fileSize := fs2,
        totalChunks := tc2, accessToken := at2, expiryDays := ed2,
        maxDownloads := md2, createdAt := ca2 } session
      (lookupA_setA_self ss req.fileId _) h rfl

/-- Witness for C10: a two-chunk session whose stored metadata differs from
the completing request, at concrete values; the committed record carries the
request values. -/
theorem C10_commit_uses_request_values_witness :
    (mkChunkRecord 50 encT b64eT jsonStringifyT
      { fileId := "f", chunkIndex := 1, chunk := [9], totalChunks := 2,
        fileName := "realName", fileSize := 2, accessToken := "realTok",
        expiryDays := 3, maxDownloads := 4 } [8, 9]).fileName = "realName" ∧
    (mkChunkRecord 50 encT b64eT jsonStringifyT
      { fileId := "f", chunkIndex := 1, chunk := [9], totalChunks := 2,
        fileName := "realName", fileSize := 2, accessToken := "realTok",
        expiryDays := 3, maxDownloads := 4 } [8, 9]).fileSize = 2 ∧
    (mkChunkRecord 50 encT b64eT jsonStringifyT
      { fileId := "f", chunkIndex := 1, chunk := [9], totalChunks := 2,
        fileName := "realName", fileSize := 2, accessToken := "realTok",
        expiryDays := 3, maxDownloads := 4 } [8, 9]).accessToken =
      "realTok" ∧
    (mkChunkRecord 50 encT b64eT jsonStringifyT
      { fileId := "f", chunkIndex := 1, chunk := [9], totalChunks := 2,
        fileName := "realName", fileSize := 2, accessToken := "realTok",
        expiryDays := 3, maxDownloads := 4 } [8, 9]).maxDownloads = some 4 ∧
    (mkChunkRecord 50 encT b64eT jsonStringifyT
      { fileId := "f", chunkIndex := 1, chunk := [9], totalChunks := 2,
        fileName := "realName", fileSize := 2, accessToken := "realTok",
        expiryDays := 3, maxDownloads := 4 } [8, 9]).expiresAt =
      50 + 3 * (24 * 60 * 60 * 1000) :=
  (C10_commit_uses_request_values 50 encT b64eT jsonStringifyT
    { fileId := "f", chunkIndex := 1, chunk := [9], totalChunks := 2,
      fileName := "realName", fileSize := 2, accessToken := "realTok",
      expiryDays := 3, maxDownloads := 4 }
    [("f", { chunks := [(0, [8])], fileName := "staleName",
             fileSize := 77, totalChunks := 9, accessToken := "staleTok",
             expiryDays := 30, maxDownloads := 100, createdAt := 0 })]
    { db := [], temp := [] }
    { chunks := [(0, [8])], fileName := "staleName", fileSize := 77,
      totalChunks := 9, accessToken := "staleTok", expiryDays := 30,
      maxDownloads := 100, createdAt := 0 }
    (by decide)).1
    (mkChunkRecord 50 encT b64eT jsonStringifyT
      { fileId := "f", chunkIndex := 1, chunk := [9], totalChunks := 2,
        fileName := "realName", fileSize := 2, accessToken := "realTok",
        expiryDays := 3, maxDownloads := 4 } [8, 9])
    []
    (saveFileShare 50 { db := [], temp := [] }
      (mkChunkRecord 50 encT b64eT jsonStringifyT
        { fileId := "f", chunkIndex := 1, chunk := [9], totalChunks := 2,
          fileName := "realName", fileSize := 2, accessToken := "realTok",
          expiryDays := 3, maxDownloads := 4 } [8, 9]))
    (by decide)

/-- C7 counterexample: the hourly sweep discards a session created at time 0
once `now = 7200000`; the next chunk for the same fileId is then accepted as
`pending` and a brand-new session is created from the request — the route
has no `SessionExpired` outcome and never fails such a call. -/
theorem C7_counterexample :
    cleanupSessions 7200000
      [("f", { chunks := [(0, [7])], fileName := "doc", fileSize := 2,
               totalChunks := 2, accessToken := "tok", expiryDays := 7,
               maxDownloads := 5, createdAt := 0 })] = [] ∧
    (uploadChunkPost 7200000 encT b64eT jsonStringifyT
      { fileId := "f", chunkIndex := 1, chunk := [9], totalChunks := 2,
        fileName := "doc", fileSize := 2, accessToken := "tok",
        expiryDays := 7, maxDownloads := 5 }
      [] { db := [], temp := [] }).1 = ChunkResp.pending ∧
    lookupA (uploadChunkPost 7200000 encT b64eT jsonStringifyT
      { fileId := "f", chunkIndex := 1, chunk := [9], totalChunks := 2,
        fileName := "doc", fileSize := 2, accessToken := "tok",
        expiryDays := 7, maxDownloads := 5 }
      [] { db := [], temp := [] }).2.1 "f" =
      some { chunks := [(1, [9])], fileName := "doc", fileSize := 2,
             totalChunks := 2, accessToken := "tok", expiryDays := 7,
             maxDownloads := 5, createdAt := 7200000 } := by
  refine ⟨by decide, by decide, by decide⟩

/-- C7 amended: after its session is discarded, a `publishChunk` call for
that fileId silently starts a fresh session built from the request (created
at the current time, holding just the new chunk) and reports `pending`; no
`SessionExpired` failure exists in the route. -/
theorem C7_discarded_session_silently_restarts (now : Int)
    (enc : String → String) (b64e : List Nat → String)
    (jsonE : List String → String) (req : ChunkReq) (ss : Sessions)
    (dbs : DBState) (h : lookupA ss req.fileId = none)
    (ht : req.totalChunks ≠ 1) :
    (uploadChunkPost now enc b64e jsonE req ss dbs).1 = ChunkResp.pending ∧
    lookupA (uploadChunkPost now enc b64e jsonE req ss dbs).2.1 req.fileId =
      some { chunks := [(req.chunkIndex, req.chunk)], fileName := req.fileName,
             fileSize := req.fileSize, totalChunks := req.totalChunks,
             accessToken := req.accessToken, expiryDays := req.expiryDays,
             maxDownloads := req.maxDownloads, createdAt := now } := by
  have hne : ¬([(req.chunkIndex, req.chunk)].length = req.totalChunks) := by
    simpa using fun he => ht he.symm
  simp only [uploadChunkPost, h, setChunk]
  rw [if_neg hne]
  exact ⟨rfl, lookupA_setA_self ss req.fileId _⟩

/-- Witness for C7 amended at a concrete discarded-session state. -/
theorem C7_discarded_session_silently_restarts_witness :
    (uploadChunkPost 7200000 encT b64eT jsonStringifyT
      { fileId := "g", chunkIndex := 0, chunk := [1], totalChunks := 3,
        fileName := "doc", fileSize := 3, accessToken := "tok",
        expiryDays := 7, maxDownloads := 5 }
      [] { db := [], temp := [] }).1 = ChunkResp.pending :=
  (C7_discarded_session_silently_restarts 7200000 encT b64eT jsonStringifyT
    { fileId := "g", chunkIndex := 0, chunk := [1], totalChunks := 3,
      fileName := "doc", fileSize := 3, accessToken := "tok",
      expiryDays := 7, maxDownloads := 5 }
    [] { db := [], temp := [] } (by decide) (by decide)).1

/-- C1: the check and the increment of a download claim are separate steps
(`await canDownload`, then `await incrementDownloadCount`), so under the
admissible schedule check, check, continuation, continuation, two concurrent
claims against a record with `maxDownloads = 1` are BOTH served, and the
final `downloadCount` is 2 — the claim is not atomic and more than one of N
concurrent claims can succeed. -/
theorem C1_concurrent_claims_both_served :
    raceTwoClaims 1000
      [("f", { fileId := "f", fileName := "doc", fileSize := 1,
               fileType := "text", encryptedData := "CIPHER",
               accessToken := "tok", expiresAt := 2000, maxDownloads := 1,
               downloadCount := 0, uploadedAt := 0 })] "f" "tok" =
    (ClaimOutcome.served, ClaimOutcome.served,
      [("f", { fileId := "f", fileName := "doc", fileSize := 1,
               fileType := "text", encryptedData := "CIPHER",
               accessToken := "tok", expiresAt := 2000, maxDownloads := 1,
               downloadCount := 2, uploadedAt := 0 })]) := by
  decide

/-- C4: an expired record that the in-memory fallback can still find is NOT
denied with `Expired`: for any record in `inMemoryDatabase` whose
`expiresAt` lies in the past, a download with the matching token on a
persistent-store miss serves the stored payload — the fallback path of the
download route performs no expiry check at all. -/
theorem C4_expired_record_served_by_fallback (now : Int)
    (jsonTry : String → Option (List String)) (b64d : String → List Nat)
    (ps : PStore) (dbs : DBState) (fileId token : String)
    (rec : FileShareData)
    (hps : lookupA ps fileId = none)
    (hdb : lookupA dbs.db fileId = some rec)
    (htok : rec.accessToken = token)
    (_hexpired : now > rec.expiresAt) :
    (downloadRoute now jsonTry b64d ps dbs fileId token).1 =
      DownloadResp.payloadRaw rec.fileData := by
  simp only [downloadRoute, canDownload, hps]
  simp only [downloadFallback, getFileShare, hdb, htok]
  simp

/-- Witness for C4: a record that expired at time 50 is served in full at
time 100 through the in-memory fallback. -/
theorem C4_expired_record_served_by_fallback_witness :
    (downloadRoute 100 jsonTryT b64dT []
      { db := [("f", { id := "f-tok", fileId := "f", fileName := "doc",
                       fileSize := 1, fileType := "text",
                       fileData := "CIPHER", uploadedBy := "anonymous",
                       uploadedAt := 0, expiresAt := 50, downloadCount := 0,
                       maxDownloads := some 5, accessToken := "tok",
                       isDownloaded := false })], temp := [] }
      "f" "tok").1 = DownloadResp.payloadRaw "CIPHER" :=
  C4_expired_record_served_by_fallback 100 jsonTryT b64dT []
    { db := [("f", { id := "f-tok", fileId := "f", fileName := "doc",
                     fileSize := 1, fileType := "text",
                     fileData := "CIPHER", uploadedBy := "anonymous",
                     uploadedAt := 0, expiresAt := 50, downloadCount := 0,
                     maxDownloads := some 5, accessToken := "tok",
                     isDownloaded := false })], temp := [] }
    "f" "tok"
    { id := "f-tok", fileId := "f", fileName := "doc", fileSize := 1,
      fileType := "text", fileData := "CIPHER", uploadedBy := "anonymous",
      uploadedAt := 0, expiresAt := 50, downloadCount := 0,
      maxDownloads := some 5, accessToken := "tok", isDownloaded := false }
    (by decide) (by decide) (by decide) (by decide)

/-- C5 amended: for an unexpired record held only by the persistent store
and queried with the right token, a download succeeds and increments
`downloadCount` by one exactly while `downloadCount < maxDownloads`; once
`downloadCount ≥ maxDownloads` the request is denied, but the denial
surfaces as `NotFound` (404) — the failed quota check merely falls through
to the in-memory fallback, which does not hold the record — never as
`QuotaExceeded`. -/
theorem C5_quota_denial_surfaces_as_notFound (now : Int)
    (jsonTry : String → Option (List String)) (b64d : String → List Nat)
    (ps : PStore) (dbs : DBState) (fileId token : String) (rec : StoredFile)
    (hps : lookupA ps fileId = some rec)
    (hexp : ¬now > rec.expiresAt)
    (htok : rec.accessToken = token)
    (hdb : getFileShare now dbs fileId = none) :
    (rec.downloadCount < rec.maxDownloads →
      downloadRoute now jsonTry b64d ps dbs fileId token =
        (DownloadResp.payloadBytes
          (parseStoredData jsonTry b64d rec.encryptedData),
         setA ps fileId
           { rec with downloadCount := rec.downloadCount + 1 })) ∧
    (rec.downloadCount ≥ rec.maxDownloads →
      downloadRoute now jsonTry b64d ps dbs fileId token =
        (DownloadResp.notFound, ps)) := by
  constructor
  · intro hlt
    have hq : ¬rec.downloadCount ≥ rec.maxDownloads := by omega
    simp only [downloadRoute, canDownload, hps, if_neg hexp, if_neg hq,
      retrieveFile, incrementDownloadCount, htok]
    simp
  · intro hge
    simp only [downloadRoute, canDownload, hps, if_neg hexp, if_pos hge]
    simp only [downloadFallback, hdb]
    simp

/-- Witness for C5 amended: a fresh record with `maxDownloads = 2` is served
and its counter goes to 1. -/
theorem C5_quota_denial_surfaces_as_notFound_witness :
    downloadRoute 100 jsonTryT b64dT
      [("f", { fileId := "f", fileName := "doc", fileSize := 1,
               fileType := "text", encryptedData := "CIPHER",
               accessToken := "tok", expiresAt := 2000, maxDownloads := 2,
               downloadCount := 0, uploadedAt := 0 })]
      { db := [], temp := [] } "f" "tok" =
      (DownloadResp.payloadBytes (parseStoredData jsonTryT b64dT "CIPHER"),
       setA [("f", { fileId := "f", fileName := "doc", fileSize := 1,
                     fileType := "text", encryptedData := "CIPHER",
                     accessToken := "tok", expiresAt := 2000,
                     maxDownloads := 2, downloadCount := 0,
                     uploadedAt := 0 })] "f"
         { fileId := "f", fileName := "doc", fileSize := 1,
           fileType := "text", encryptedData := "CIPHER",
           accessToken := "tok", expiresAt := 2000, maxDownloads := 2,
           downloadCount := 1, uploadedAt := 0 }) :=
  (C5_quota_denial_surfaces_as_notFound 100 jsonTryT b64dT
    [("f", { fileId := "f", fileName := "doc", fileSize := 1,
             fileType := "text", encryptedData := "CIPHER",
             accessToken := "tok", expiresAt := 2000, maxDownloads := 2,
             downloadCount := 0, uploadedAt := 0 })]
    { db := [], temp := [] } "f" "tok"
    { fileId := "f", fileName := "doc", fileSize := 1, fileType := "text",
      encryptedData := "CIPHER", accessToken := "tok", expiresAt := 2000,
      maxDownloads := 2, downloadCount := 0, uploadedAt := 0 }
    (by decide) (by decide) (by decide) (by decide)).1 (by decide)

/-- C5 counterexample: with `maxDownloads = 2`, two sequential downloads
succeed, but the third returns `NotFound` (404), not `QuotaExceeded`. -/
theorem C5_counterexample :
    ((downloadRoute 100 jsonTryT b64dT
      [("f", { fileId := "f", fileName := "doc", fileSize := 1,
               fileType := "text", encryptedData := "CIPHER",
               accessToken := "tok", expiresAt := 2000, maxDownloads := 2,
               downloadCount := 0, uploadedAt := 0 })]
      { db := [], temp := [] } "f" "tok").1 =
      DownloadResp.payloadBytes (b64dT "CIPHER")) ∧
    ((downloadRoute 100 jsonTryT b64dT
      (downloadRoute 100 jsonTryT b64dT
        [("f", { fileId := "f", fileName := "doc", fileSize := 1,
                 fileType := "text", encryptedData := "CIPHER",
                 accessToken := "tok", expiresAt := 2000, maxDownloads := 2,
                 downloadCount := 0, uploadedAt := 0 })]
        { db := [], temp := [] } "f" "tok").2
      { db := [], temp := [] } "f" "tok").1 =
      DownloadResp.payloadBytes (b64dT "CIPHER")) ∧
    ((downloadRoute 100 jsonTryT b64dT
      (downloadRoute 100 jsonTryT b64dT
        (downloadRoute 100 jsonTryT b64dT
          [("f", { fileId := "f", fileName := "doc", fileSize := 1,
                   fileType := "text", encryptedData := "CIPHER",
                   accessToken := "tok", expiresAt := 2000, maxDownloads := 2,
                   downloadCount := 0, uploadedAt := 0 })]
          { db := [], temp := [] } "f" "tok").2
        { db := [], temp := [] } "f" "tok").2
      { db := [], temp := [] } "f" "tok").1 = DownloadResp.notFound) ∧
    DownloadResp.notFound ≠ DownloadResp.quotaExceeded := by
  refine ⟨by decide, by decide, by decide, by decide⟩

/-- C6 counterexample: after `deleteFileShare` removes the primary
(`inMemoryDatabase`) copy, a read through `getFileShare` returns the
surviving temporary-store copy — the stale ephemeral copy, not `NotFound`. -/
theorem C6_counterexample :
    getFileShare 1000
      (deleteFileShare
        { db := [("f", { id := "f-tok", fileId := "f", fileName := "doc",
                         fileSize := 1, fileType := "text",
                         fileData := "CIPHER", uploadedBy := "anonymous",
                         uploadedAt := 0, expiresAt := 999999,
                         downloadCount := 0, maxDownloads := some 5,
                         accessToken := "tok", isDownloaded := false })],
          temp := [("f", ({ id := "f-tok", fileId := "f", fileName := "doc",
                            fileSize := 1, fileType := "text",
                            fileData := "CIPHER", uploadedBy := "anonymous",
                            uploadedAt := 0, expiresAt := 999999,
                            downloadCount := 0, maxDownloads := some 5,
                            accessToken := "tok", isDownloaded := false },
                           0))] } "f").2 "f" =
      some { id := "f-tok", fileId := "f", fileName := "doc", fileSize := 1,
             fileType := "text", fileData := "CIPHER",
             uploadedBy := "anonymous", uploadedAt := 0, expiresAt := 999999,
             downloadCount := 0, maxDownloads := some 5, accessToken := "tok",
             isDownloaded := false } := by
  decide

/-- C6 amended: `deleteFileShare` removes only the primary copy; while the
temporary-store entry is within its 24-hour window a read through the
resolver returns that stale copy, and only once the window has lapsed does
it return `NotFound`. -/
theorem C6_delete_leaves_stale_temp_copy (dbs : DBState) (fileId : String)
    (rec : FileShareData) (ts : Int)
    (htemp : lookupA dbs.temp fileId = some (rec, ts)) :
    (∀ now : Int, now - ts < TEMP_STORE_TTL →
      getFileShare now (deleteFileShare dbs fileId).2 fileId = some rec) ∧
    (∀ now : Int, ¬now - ts < TEMP_STORE_TTL →
      getFileShare now (deleteFileShare dbs fileId).2 fileId = none) := by
  constructor
  · intro now hfresh
    simp only [getFileShare, deleteFileShare, lookupA_eraseA_self, htemp,
      if_pos hfresh]
  · intro now hstale
    simp only [getFileShare, deleteFileShare, lookupA_eraseA_self, htemp,
      if_neg hstale]

/-- Witness for C6 amended at a concrete two-tier state. -/
theorem C6_delete_leaves_stale_temp_copy_witness :
    getFileShare 500
      (deleteFileShare
        { db := [("f", { id := "f-tok", fileId := "f", fileName := "doc",
                         fileSize := 1, fileType := "text",
                         fileData := "CIPHER", uploadedBy := "anonymous",
                         uploadedAt := 0, expiresAt := 999999,
                         downloadCount := 0, maxDownloads := some 5,
                         accessToken := "tok", isDownloaded := false })],
          temp := [("f", ({ id := "f-tok", fileId := "f", fileName := "doc",
                            fileSize := 1, fileType := "text",
                            fileData := "CIPHER", uploadedBy := "anonymous",
                            uploadedAt := 0, expiresAt := 999999,
                            downloadCount := 0, maxDownloads := some 5,
                            accessToken := "tok", isDownloaded := false },
                           0))] } "f").2 "f" =
      some { id := "f-tok", fileId := "f", fileName := "doc", fileSize := 1,
             fileType := "text", fileData := "CIPHER",
             uploadedBy := "anonymous", uploadedAt := 0, expiresAt := 999999,
             downloadCount := 0, maxDownloads := some 5, accessToken := "tok",
             isDownloaded := false } :=
  (C6_delete_leaves_stale_temp_copy
    { db := [("f", { id := "f-tok", fileId := "f", fileName := "doc",
                     fileSize := 1, fileType := "text",
                     fileData := "CIPHER", uploadedBy := "anonymous",
                     uploadedAt := 0, expiresAt := 999999,
                     downloadCount := 0, maxDownloads := some 5,
                     accessToken := "tok", isDownloaded := false })],
      temp := [("f", ({ id := "f-tok", fileId := "f", fileName := "doc",
                        fileSize := 1, fileType := "text",
                        fileData := "CIPHER", uploadedBy := "anonymous",
                        uploadedAt := 0, expiresAt := 999999,
                        downloadCount := 0, maxDownloads := some 5,
                        accessToken := "tok", isDownloaded := false },
                       0))] } "f"
    { id := "f-tok", fileId := "f", fileName := "doc", fileSize := 1,
      fileType := "text", fileData := "CIPHER", uploadedBy := "anonymous",
      uploadedAt := 0, expiresAt := 999999, downloadCount := 0,
      maxDownloads := some 5, accessToken := "tok", isDownloaded := false }
    0 (by decide)).1 500 (by decide)

/-- C9 counterexample: a record whose access token is `tok` is held in the
temp cache (and in `inMemoryDatabase`); a metadata query with the wrong
token `bad` still receives the record summary from the temp-cache branch —
not `TokenMismatch`. -/
theorem C9_counterexample :
    shareRoute 100 false none []
      [("f", { encryptedData := "CIPHER", fileName := "doc", fileSize := 1,
               fileType := "text", expiresAt := 999999, createdAt := 0 })]
      { db := [("f", { id := "f-tok", fileId := "f", fileName := "doc",
                       fileSize := 1, fileType := "text",
                       fileData := "CIPHER", uploadedBy := "anonymous",
                       uploadedAt := 0, expiresAt := 999999,
                       downloadCount := 0, maxDownloads := some 5,
                       accessToken := "tok", isDownloaded := false })],
        temp := [] }
      "f" "bad" =
      ShareResp.summary
        { fileId := "f", fileName := "doc", fileSize := 1,
          downloadCount := 0, maxDownloads := some 5, isExpired := false,
          canDownload := true } ∧
    ShareResp.summary
        { fileId := "f", fileName := "doc", fileSize := 1,
          downloadCount := 0, maxDownloads := some 5, isExpired := false,
          canDownload := true } ≠ ShareResp.invalidToken := by
  refine ⟨by decide, by decide⟩

/-- C9 amended: `TokenMismatch` is produced only by the in-memory branch of
the metadata route; when the record is found in the temp cache (after a
persistent-store miss, cloud store unconfigured) the summary is returned
without any token comparison, so every token — right or wrong — receives
the record summary. -/
theorem C9_temp_cache_summary_ignores_token (now : Int) (ps : PStore)
    (tc : TCache) (dbs : DBState) (fileId : String) (cachedFile : CachedFile)
    (hps : lookupA ps fileId = none)
    (hc : getCachedFile now tc fileId = some cachedFile) :
    ∀ token : String,
      shareRoute now false none ps tc dbs fileId token =
        ShareResp.summary
          { fileId := fileId, fileName := cachedFile.fileName,
            fileSize := cachedFile.fileSize, downloadCount := 0,
            maxDownloads := some 5,
            isExpired := decide (now > cachedFile.expiresAt),
            canDownload := !decide (now > cachedFile.expiresAt) } := by
  intro token
  simp only [shareRoute, retrieveFile, hps, shareRouteCacheFallback, hc]

/-- Witness for C9 amended: concrete cache state queried with a wrong
token. -/
theorem C9_temp_cache_summary_ignores_token_witness :
    shareRoute 100 false none []
      [("g", { encryptedData := "CIPHER", fileName := "doc", fileSize := 1,
               fileType := "text", expiresAt := 999999, createdAt := 0 })]
      { db := [], temp := [] } "g" "wrong" =
      ShareResp.summary
        { fileId := "g", fileName := "doc", fileSize := 1,
          downloadCount := 0, maxDownloads := some 5,
          isExpired := decide ((100 : Int) > 999999),
          canDownload := !decide ((100 : Int) > 999999) } :=
  C9_temp_cache_summary_ignores_token 100 []
    [("g", { encryptedData := "CIPHER", fileName := "doc", fileSize := 1,
             fileType := "text", expiresAt := 999999, createdAt := 0 })]
    { db := [], temp := [] } "g"
    { encryptedData := "CIPHER", fileName := "doc", fileSize := 1,
      fileType := "text", expiresAt := 999999, createdAt := 0 }
    (by decide) (by decide) "wrong"

theorem uploadChunkPost_committed_inv (now : Int) (enc : String → String)
    (b64e : List Nat → String) (jsonE : List String → String) (req : ChunkReq)
    (ss : Sessions) (dbs : DBState) (rec : FileShareData) (ss2 : Sessions)
    (dbs2 : DBState)
    (hcommit : uploadChunkPost now enc b64e jsonE req ss dbs =
      (ChunkResp.committed rec, ss2, dbs2)) :
    ∃ buffer : List Nat,
      rec = mkChunkRecord now enc b64e jsonE req buffer ∧
      dbs2 = saveFileShare now dbs rec := by
  simp only [uploadChunkPost] at hcommit
  split at hcommit
  · split at hcommit
    · simp at hcommit
    · rename_i buffer heq
      simp only [Prod.mk.injEq] at hcommit
      obtain ⟨h1, _, h3⟩ := hcommit
      injection h1 with hrec
      refine ⟨buffer, hrec.symm, ?_⟩
      rw [← hrec]
      exact h3.symm
  · simp at hcommit

/-- C3: the bytes a successful fetch serves are NOT the Codec decryption of
the stored ciphertext: for any share committed by the chunk-upload route,
the download route (persistent-store miss, in-memory fallback hit with the
correct token) serves the stored `fileData` string itself — which is the
`encryptFileBuffer` output for the assembled payload, still encrypted;
`decryptFileBuffer` is never applied on the serving path. -/
theorem C3_fetch_serves_stored_ciphertext (now : Int) (enc : String → String)
    (b64e : List Nat → String) (jsonE : List String → String)
    (jsonTry : String → Option (List String)) (b64d : String → List Nat)
    (req : ChunkReq) (ss : Sessions) (dbs : DBState) (ps : PStore)
    (rec : FileShareData) (ss2 : Sessions) (dbs2 : DBState)
    (hcommit : uploadChunkPost now enc b64e jsonE req ss dbs =
      (ChunkResp.committed rec, ss2, dbs2))
    (hps : lookupA ps req.fileId = none) :
    (downloadRoute now jsonTry b64d ps dbs2 req.fileId req.accessToken).1 =
      DownloadResp.payloadRaw rec.fileData ∧
    ∃ buffer : List Nat,
      rec.fileData = encryptFileBuffer enc b64e jsonE buffer := by
  obtain ⟨buffer, hrec, hdbs2⟩ :=
    uploadChunkPost_committed_inv now enc b64e jsonE req ss dbs rec ss2 dbs2
      hcommit
  have hfid : rec.fileId = req.fileId := by rw [hrec]; rfl
  have htok : rec.accessToken = req.accessToken := by rw [hrec]; rfl
  have hdata : rec.fileData = encryptFileBuffer enc b64e jsonE buffer := by
    rw [hrec]; rfl
  refine ⟨?_, buffer, hdata⟩
  have hdb : lookupA dbs2.db req.fileId = some rec := by
    rw [hdbs2]
    simp only [saveFileShare, hfid]
    exact lookupA_setA_self dbs.db req.fileId rec
  simp only [downloadRoute, canDownload, hps]
  simp only [downloadFallback, getFileShare, hdb, htok]
  simp

/-- Witness for C3: a one-chunk publish of the payload `[5]` followed by a
fetch with the correct token; the served body is the stored ciphertext
string. -/
theorem C3_fetch_serves_stored_ciphertext_witness :
    (downloadRoute 0 jsonTryT b64dT []
      (saveFileShare 0 { db := [], temp := [] }
        (mkChunkRecord 0 encT b64eT jsonStringifyT
          { fileId := "f", chunkIndex := 0, chunk := [5], totalChunks := 1,
            fileName := "doc", fileSize := 1, accessToken := "tok",
            expiryDays := 7, maxDownloads := 5 } [5]))
      "f" "tok").1 =
      DownloadResp.payloadRaw
        (mkChunkRecord 0 encT b64eT jsonStringifyT
          { fileId := "f", chunkIndex := 0, chunk := [5], totalChunks := 1,
            fileName := "doc", fileSize := 1, accessToken := "tok",
            expiryDays := 7, maxDownloads := 5 } [5]).fileData :=
  (C3_fetch_serves_stored_ciphertext 0 encT b64eT jsonStringifyT jsonTryT
    b64dT
    { fileId := "f", chunkIndex := 0, chunk := [5], totalChunks := 1,
      fileName := "doc", fileSize := 1, accessToken := "tok",
      expiryDays := 7, maxDownloads := 5 }
    [] { db := [], temp := [] } []
    (mkChunkRecord 0 encT b64eT jsonStringifyT
      { fileId := "f", chunkIndex := 0, chunk := [5], totalChunks := 1,
        fileName := "doc", fileSize := 1, accessToken := "tok",
        expiryDays := 7, maxDownloads := 5 } [5])
    []
    (saveFileShare 0 { db := [], temp := [] }
      (mkChunkRecord 0 encT b64eT jsonStringifyT
        { fileId := "f", chunkIndex := 0, chunk := [5], totalChunks := 1,
          fileName := "doc", fileSize := 1, accessToken := "tok",
          expiryDays := 7, maxDownloads := 5 } [5]))
    (by decide) (by decide)).1

end ShareBox
